import Mathlib

/-!
Verification of the BatchPayChannel state-channel system (contract
`BatchPayChannel` in `packages/hardhat`, client services `stateChannelClient.ts`
and `clearnode.ts` in `packages/nextjs`).

Shallow embedding conventions:
* `address` and `bytes32` values are modelled as natural numbers; `0` plays the
  role of `address(0)` / `bytes32(0)`.
* Solidity `require` failures (reverts) are modelled as `Except.error` carrying
  the revert string; a reverted call leaves storage unchanged.
* ECDSA recovery is abstract: a signature type `Sig` together with a recovery
  function `recover : ChannelStateData → Sig → Address` stands for
  `ECDSA.recover(toEthSignedMessageHash(keccak256(encode(state))), sig)`.
* `block.timestamp` and `msg.sender` are explicit arguments (`now`, `sender`).
-/

namespace BatchPay

/-- An Ethereum address, modelled as a natural number (`0` = zero address). -/
abbrev Address := Nat

/-- A `bytes32` value (channel id, state hash), modelled as a natural number. -/
abbrev Bytes32 := Nat

/-- Solidity call result: `Except.error` is a revert with the given reason. -/
abbrev SolM (α : Type) := Except String α

/-- `ChannelStateData` struct of `BatchPayChannel`: the off-chain-agreed state
submitted to `updateState` / `challengeState` / `closeChannel`. -/
structure ChannelStateData where
  channelId : Bytes32
  stateHash : Bytes32
  nonce : Nat
  balances : List Int
deriving DecidableEq

/-- Per-channel storage of the contract: the `Channel` struct. The
`EnumerableSet.AddressSet participants` is an ordered list of distinct
addresses; `deposits` is the `mapping(address => uint256)` as a total function
defaulting to `0`. The `preferences` mapping is omitted: it is never read by
the lifecycle functions verified here. -/
structure Channel where
  channelId : Bytes32
  participants : List Address
  totalDeposit : Nat
  deposits : Address → Nat
  nonce : Nat
  timeout : Nat
  disputeDeadline : Nat
  stateHash : Bytes32
  isOpen : Bool
  inDispute : Bool
  chainId : Nat

/-- `DISPUTE_PERIOD = 7 days` (in seconds). -/
def DISPUTE_PERIOD : Nat := 7 * 86400

/-- `CHANNEL_TIMEOUT = 30 days` (in seconds). -/
def CHANNEL_TIMEOUT : Nat := 30 * 86400

/-- `MIN_PARTICIPANTS = 2`. -/
def MIN_PARTICIPANTS : Nat := 2

/-- `MAX_PARTICIPANTS = 50`. -/
def MAX_PARTICIPANTS : Nat := 50

/-- The inner loop of `_verifySignatures`: scan the participant list in order
and set the flag of the first participant equal to `r` whose flag is still
`false` (the `if (recovered == participant && !hasSigned[j]) { ...; break; }`
loop). -/
def markSigned (r : Address) : List Address → List Bool → List Bool
  | p :: ps, b :: bs => if r = p ∧ b = false then true :: bs else b :: markSigned r ps bs
  | _, bs => bs

/-- The signature loop of `_verifySignatures`: recover each signer, revert with
"Invalid signer" if the recovered address is not a participant, otherwise mark
the participant as having signed. -/
def recoverAndMark {Sig : Type} (recover : ChannelStateData → Sig → Address)
    (st : ChannelStateData) (participants : List Address) :
    List Sig → List Bool → SolM (List Bool)
  | [], hasSigned => .ok hasSigned
  | s :: ss, hasSigned =>
    if recover st s ∈ participants then
      recoverAndMark recover st participants ss (markSigned (recover st s) participants hasSigned)
    else .error "Invalid signer"

/-- `_verifySignatures`: requires one signature per participant (revert
otherwise), recovers all signers (reverting on a non-participant signer), and
returns `true` iff every participant has signed. -/
def verifySignatures {Sig : Type} (recover : ChannelStateData → Sig → Address)
    (channel : Channel) (state : ChannelStateData) (signatures : List Sig) :
    SolM Bool :=
  if signatures.length ≠ channel.participants.length then
    .error "Need all participant signatures"
  else
    match recoverAndMark recover state channel.participants signatures
        (List.replicate channel.participants.length false) with
    | .error e => .error e
    | .ok hasSigned => .ok (hasSigned.all (· = true))

/-- `updateState`: modifiers `validChannelId`, `onlyParticipant`, `channelOpen`,
`notInDispute`, then the body's `require`s in source order. On success the
channel adopts the new `stateHash` and `nonce` in place. -/
def updateState {Sig : Type} (recover : ChannelStateData → Sig → Address)
    (sender : Address) (channel : Channel) (newState : ChannelStateData)
    (signatures : List Sig) : SolM Channel :=
  if channel.channelId = 0 then .error "Invalid channel"
  else if sender ∉ channel.participants then .error "Not a participant"
  else if channel.isOpen = false then .error "Channel not open"
  else if channel.inDispute = true then .error "Channel in dispute"
  else if newState.channelId ≠ channel.channelId then .error "Channel ID mismatch"
  else if ¬ channel.nonce < newState.nonce then .error "Nonce must increase"
  else if newState.balances.length ≠ channel.participants.length then
    .error "Balance array length mismatch"
  else
    match verifySignatures recover channel newState signatures with
    | .error e => .error e
    | .ok false => .error "Invalid signatures"
    | .ok true =>
      if newState.balances.foldl (· + ·) 0 ≠ 0 then .error "Balances must sum to zero"
      else .ok { channel with stateHash := newState.stateHash, nonce := newState.nonce }

/-- `challengeState`: modifiers `validChannelId`, `onlyParticipant`,
`channelOpen` (no `notInDispute`), then strictly-higher nonce and signature
checks. On success adopts the new state, sets `inDispute` and resets
`disputeDeadline = now + DISPUTE_PERIOD`. -/
def challengeState {Sig : Type} (recover : ChannelStateData → Sig → Address)
    (sender : Address) (now : Nat) (channel : Channel)
    (higherNonceState : ChannelStateData) (signatures : List Sig) : SolM Channel :=
  if channel.channelId = 0 then .error "Invalid channel"
  else if sender ∉ channel.participants then .error "Not a participant"
  else if channel.isOpen = false then .error "Channel not open"
  else if ¬ channel.nonce < higherNonceState.nonce then .error "Must provide higher nonce"
  else
    match verifySignatures recover channel higherNonceState signatures with
    | .error e => .error e
    | .ok false => .error "Invalid signatures"
    | .ok true =>
      .ok { channel with
        stateHash := higherNonceState.stateHash
        nonce := higherNonceState.nonce
        inDispute := true
        disputeDeadline := now + DISPUTE_PERIOD }

/-- `closeChannel`: modifiers `validChannelId`, `onlyParticipant`,
`channelOpen`; while `inDispute`, waits for the dispute deadline; requires
signatures and `finalState.nonce >= channel.nonce` (equality allowed). On
success transitions to closed with the final state's hash and nonce. -/
def closeChannel {Sig : Type} (recover : ChannelStateData → Sig → Address)
    (sender : Address) (now : Nat) (channel : Channel)
    (finalState : ChannelStateData) (signatures : List Sig) : SolM Channel :=
  if channel.channelId = 0 then .error "Invalid channel"
  else if sender ∉ channel.participants then .error "Not a participant"
  else if channel.isOpen = false then .error "Channel not open"
  else if channel.inDispute = true ∧ ¬ channel.disputeDeadline ≤ now then
    .error "Dispute period not over"
  else
    match verifySignatures recover channel finalState signatures with
    | .error e => .error e
    | .ok false => .error "Invalid signatures"
    | .ok true =>
      if ¬ channel.nonce ≤ finalState.nonce then .error "Cannot use old state"
      else .ok { channel with
        isOpen := false
        stateHash := finalState.stateHash
        nonce := finalState.nonce }

/-- `forceClose`: modifiers `validChannelId`, `onlyParticipant` (no
`channelOpen`), requires the channel timeout to have passed, then only sets
`isOpen := false`, leaving `nonce`, `stateHash` and `inDispute` unchanged. -/
def forceClose (sender : Address) (now : Nat) (channel : Channel) : SolM Channel :=
  if channel.channelId = 0 then .error "Invalid channel"
  else if sender ∉ channel.participants then .error "Not a participant"
  else if ¬ channel.timeout ≤ now then .error "Timeout not reached"
  else .ok { channel with isOpen := false }

/-- The participant-validation loop of `openChannel`: for each `i`, require a
nonzero address, then require no duplicate among the later entries. -/
def checkParticipants : List Address → SolM Unit
  | [] => .ok ()
  | p :: ps =>
    if p = 0 then .error "Invalid participant"
    else if p ∈ ps then .error "Duplicate participant"
    else checkParticipants ps

/-- `openChannel`: participant-count, deposit and chain-id checks, duplicate /
zero-address validation, then creation of the channel record. The whole
`msg.value` is recorded as the caller's deposit and as `totalDeposit`; the
keccak-derived channel id is passed in as `channelId`. -/
def openChannel (sender : Address) (now : Nat) (participants : List Address)
    (chainId : Nat) (msgValue : Nat) (channelId : Bytes32) : SolM Channel :=
  if ¬ (MIN_PARTICIPANTS ≤ participants.length ∧ participants.length ≤ MAX_PARTICIPANTS) then
    .error "Invalid participant count"
  else if ¬ 0 < msgValue then .error "Deposit required"
  else if ¬ 0 < chainId then .error "Invalid chain ID"
  else
    match checkParticipants participants with
    | .error e => .error e
    | .ok _ =>
      .ok { channelId := channelId
            participants := participants
            totalDeposit := msgValue
            deposits := fun a => if a = sender then msgValue else 0
            nonce := 0
            timeout := now + CHANNEL_TIMEOUT
            disputeDeadline := 0
            stateHash := 0
            isOpen := true
            inDispute := false
            chainId := chainId }

/-- `emergencyWithdraw`: only on a closed channel with a positive recorded
deposit for the caller; zeroes the caller's deposit (the ETH transfer itself is
external to the model). -/
def emergencyWithdraw (sender : Address) (channel : Channel) : SolM Channel :=
  if channel.channelId = 0 then .error "Invalid channel"
  else if sender ∉ channel.participants then .error "Not a participant"
  else if channel.isOpen = true then .error "Channel still open"
  else if ¬ 0 < channel.deposits sender then .error "No deposit to withdraw"
  else .ok { channel with deposits := fun a => if a = sender then 0 else channel.deposits a }

/-- A state-mutating invocation on an existing channel. -/
inductive ChanOp (Sig : Type) where
  | update (sender : Address) (st : ChannelStateData) (sigs : List Sig)
  | challenge (sender : Address) (now : Nat) (st : ChannelStateData) (sigs : List Sig)
  | close (sender : Address) (now : Nat) (st : ChannelStateData) (sigs : List Sig)
  | force (sender : Address) (now : Nat)
  | withdraw (sender : Address)

/-- Dispatch one invocation to the corresponding contract function. -/
def applyOp {Sig : Type} (recover : ChannelStateData → Sig → Address)
    (channel : Channel) : ChanOp Sig → SolM Channel
  | .update s st sigs => updateState recover s channel st sigs
  | .challenge s now st sigs => challengeState recover s now channel st sigs
  | .close s now st sigs => closeChannel recover s now channel st sigs
  | .force s now => forceClose s now channel
  | .withdraw s => emergencyWithdraw s channel

/-- One transaction: a revert leaves the channel storage unchanged. -/
def stepOp {Sig : Type} (recover : ChannelStateData → Sig → Address)
    (channel : Channel) (op : ChanOp Sig) : Channel :=
  match applyOp recover channel op with
  | .ok c => c
  | .error _ => channel

/-- A sequence of transactions against one channel. -/
def runOps {Sig : Type} (recover : ChannelStateData → Sig → Address)
    (channel : Channel) (ops : List (ChanOp Sig)) : Channel :=
  ops.foldl (stepOp recover) channel

/-- One `updateState` transaction (revert keeps the channel unchanged). -/
def stepUpdate {Sig : Type} (recover : ChannelStateData → Sig → Address)
    (channel : Channel) (t : Address × ChannelStateData × List Sig) : Channel :=
  match updateState recover t.1 channel t.2.1 t.2.2 with
  | .ok c => c
  | .error _ => channel

/-- A sequence of `updateState` transactions against one channel. -/
def runUpdates {Sig : Type} (recover : ChannelStateData → Sig → Address)
    (channel : Channel) (ts : List (Address × ChannelStateData × List Sig)) : Channel :=
  ts.foldl (stepUpdate recover) channel

/-! ### Client side: `clearnode.ts` and `stateChannelClient.ts`

The WebSocket transport and timers are abstracted: an `authenticate` call is a
function of the connection state and of the first decisive event observed by
its handler (an `auth_verify`/`auth_success` message, an error message, or the
15-second timeout firing). -/

/-- The `connectionState` field of `ClearNodeService`. -/
inductive ConnPhase where
  | disconnected
  | connecting
  | connected
  | authenticating
  | authenticated
deriving DecidableEq

/-- The `ClearNodeConnection` record (`isConnected` / `isAuthenticated` /
optional `jwtToken`, modelled as a number). -/
structure ClearNodeConnection where
  isConnected : Bool
  isAuthenticated : Bool
  jwtToken : Option Nat
deriving DecidableEq

/-- The mutable state of `ClearNodeService` relevant to authentication:
whether `this.ws` is set, whether a message signer was provided, the
`connection` record and the `connectionState` phase. -/
structure ClearNodeState where
  hasWs : Bool
  hasSigner : Bool
  connection : ClearNodeConnection
  connectionState : ConnPhase
deriving DecidableEq

/-- The first decisive event seen by an authentication attempt: an
`auth_verify`/`auth_success` message with its success flag and optional JWT
token, an error message, or the 15-second timeout firing with no relay
confirmation. -/
inductive AuthOutcome where
  | verified (success : Bool) (jwtToken : Option Nat)
  | errorMessage (msg : String)
  | timeout
deriving DecidableEq

/-- How the `authenticate` promise settles. -/
inductive AuthResult where
  | resolved
  | rejected (msg : String)
deriving DecidableEq

/-- The settling branches of the `authenticate` handler: success marks the
connection authenticated and stores any JWT token; a failed verify returns the
phase to `connected` and rejects; an error message rejects; the timeout
returns the phase to `connected` and rejects — it never marks the connection
authenticated. -/
def settleAuth (cn : ClearNodeState) : AuthOutcome → ClearNodeState × AuthResult
  | .verified true jwt =>
    ({ cn with
        connectionState := .authenticated
        connection := { cn.connection with
          isAuthenticated := true
          jwtToken := match jwt with | some t => some t | none => cn.connection.jwtToken } },
      .resolved)
  | .verified false _ =>
    ({ cn with connectionState := .connected }, .rejected "Authentication failed")
  | .errorMessage m => (cn, .rejected ("Authentication failed: " ++ m))
  | .timeout =>
    ({ cn with connectionState := .connected },
      .rejected "Authentication timeout - ClearNode authentication failed")

/-- `ClearNodeService.authenticate`: guards (`ws` present and phase
`connected`, signer available, not already authenticating/authenticated), then
the attempt enters `authenticating` and settles on the first decisive
event. -/
def authenticate (cn : ClearNodeState) (outcome : AuthOutcome) :
    ClearNodeState × AuthResult :=
  if cn.hasWs = false ∨ cn.connectionState ≠ .connected then
    (cn, .rejected "Not connected to ClearNode")
  else if cn.hasSigner = false then
    (cn, .rejected "Message signer not available")
  else if cn.connectionState = .authenticating ∨ cn.connectionState = .authenticated then
    (cn, .resolved)
  else settleAuth { cn with connectionState := .authenticating } outcome

/-- A `ChannelParticipant` of the client's local `ChannelState` (the float
`weight` field is irrelevant to the verified behaviour and omitted). -/
structure ChannelParticipant where
  address : Address
  balance : Int
deriving DecidableEq

/-- The client's local `ChannelState` record. -/
structure ClientChannelState where
  channelId : Bytes32
  participants : List ChannelParticipant
  nonce : Nat
  stateHash : Bytes32
  isOpen : Bool
  totalDeposit : Nat
  chainId : Nat
deriving DecidableEq

/-- The fields of `StateChannelClient` used by `updateChannelState`. -/
structure StateChannelClient where
  currentChannel : Option ClientChannelState
  hasMessageSigner : Bool
deriving DecidableEq

/-- `ClearNodeService.sendStateUpdate`: throws "Not authenticated" unless a
signer is set and the connection is authenticated; otherwise signs the
`submit_app_state` message (`signOk` models whether the injected signer
succeeds) and sends it over the socket. It resolves as soon as the message is
sent; no relay response and no countersignature is awaited. -/
def sendStateUpdate (cn : ClearNodeState) (signOk : Bool) : SolM Unit :=
  if cn.hasSigner = false ∨ cn.connection.isAuthenticated = false then
    .error "Not authenticated"
  else if signOk = false then .error "Failed to send state update"
  else .ok ()

/-- The balance-commit map of `updateChannelState`:
`participants.map((p, i) => ({ ...p, balance: newBalances[i] || p.balance }))`.
A missing entry — and, by JavaScript falsiness, a zero entry — keeps the old
balance. -/
def setBalances (ps : List ChannelParticipant) (newBalances : List Int) :
    List ChannelParticipant :=
  ps.mapIdx fun i p =>
    { p with balance := match newBalances[i]? with
        | some b => if b = 0 then p.balance else b
        | none => p.balance }

/-- The local commit performed at the end of `updateChannelState`: increment
the nonce, adopt the new hash, apply the new balances. -/
def commitState (client : StateChannelClient) (ch : ClientChannelState)
    (newBalances : List Int) (newStateHash : Bytes32) : StateChannelClient :=
  let ch' : ClientChannelState :=
    { ch with
        nonce := ch.nonce + 1
        stateHash := newStateHash
        participants := setBalances ch.participants newBalances }
  { client with currentChannel := some ch' }

/-- `StateChannelClient.updateChannelState`: requires a current channel and a
message signer, builds the state update with `nonce = current + 1` and the
freshly generated hash `newStateHash`, sends it via
`ClearNodeService.sendStateUpdate`, and — immediately once the send resolves —
commits the incremented nonce, the new hash and the new balances as the local
current state. No countersignature is collected and no signature verification
is performed before committing. -/
def updateChannelState (client : StateChannelClient) (cn : ClearNodeState)
    (newBalances : List Int) (newStateHash : Bytes32) (signOk : Bool) :
    SolM StateChannelClient :=
  match client.currentChannel with
  | none => .error "No active channel or message signer not set"
  | some ch =>
    if client.hasMessageSigner = false then
      .error "No active channel or message signer not set"
    else
      match sendStateUpdate cn signOk with
      | .error e => .error e
      | .ok _ => .ok (commitState client ch newBalances newStateHash)

/-! ### Concrete test fixtures

`recAddr` instantiates the abstract recovery with `Sig := Address`: a
signature is identified with the address it recovers to, for any state. -/

/-- Concrete recovery function: a signature is the address it recovers to. -/
def recAddr : ChannelStateData → Address → Address := fun _ s => s

/-- A concrete two-party channel, exactly as created by
`openChannel 1 0 [1, 2] 1 10 9`. -/
def chT : Channel :=
  { channelId := 9
    participants := [1, 2]
    totalDeposit := 10
    deposits := fun a => if a = 1 then 10 else 0
    nonce := 0
    timeout := 0 + CHANNEL_TIMEOUT
    disputeDeadline := 0
    stateHash := 0
    isOpen := true
    inDispute := false
    chainId := 1 }

/-- A fully valid successor state for `chT` (nonce 1, zero-sum balances). -/
def stT : ChannelStateData := { channelId := 9, stateHash := 5, nonce := 1, balances := [3, -3] }

/-- A stale state for `chT` (nonce 0, zero-sum balances). -/
def stT0 : ChannelStateData := { channelId := 9, stateHash := 6, nonce := 0, balances := [3, -3] }

/-- A nonce-2 state for `chT` (zero-sum balances). -/
def stT2 : ChannelStateData := { channelId := 9, stateHash := 8, nonce := 2, balances := [4, -4] }

/-- A nonce-1 state whose balances sum to 3, not 0. -/
def stBad : ChannelStateData := { channelId := 9, stateHash := 7, nonce := 1, balances := [1, 2] }

/-- `chT` after accepting `stT`. -/
def chT1 : Channel := { chT with stateHash := 5, nonce := 1 }

/-- `chT` in dispute with an old deadline. -/
def chD : Channel := { chT with inDispute := true, disputeDeadline := 50 }

/-- `chT` closed. -/
def chC : Channel := { chT with isOpen := false }

/-- The client's concrete local channel at nonce 0. -/
def chCl : ClientChannelState :=
  { channelId := 9
    participants := [{ address := 1, balance := 0 }, { address := 2, balance := 0 }]
    nonce := 0
    stateHash := 0
    isOpen := true
    totalDeposit := 10
    chainId := 1 }

/-- A client holding `chCl` with a message signer set. -/
def clientC8 : StateChannelClient := { currentChannel := some chCl, hasMessageSigner := true }

/-- An authenticated relay connection. -/
def cnAuth : ClearNodeState :=
  { hasWs := true
    hasSigner := true
    connection := { isConnected := true, isAuthenticated := true, jwtToken := none }
    connectionState := .authenticated }

/-- A connected, not-yet-authenticated relay connection. -/
def cnConn : ClearNodeState :=
  { hasWs := true
    hasSigner := true
    connection := { isConnected := true, isAuthenticated := false, jwtToken := none }
    connectionState := .connected }

/-! ### Helper lemmas -/

theorem markSigned_getElem? (r : Address) :
    ∀ (ps : List Address) (bs : List Bool), ps.Nodup →
      ∀ (j : Nat) (b : Bool) (p : Address), bs[j]? = some b → ps[j]? = some p →
      (markSigned r ps bs)[j]? = some (b || decide (p = r))
  | [], _, _, _, _, _, _, hp => by simp at hp
  | _ :: _, [], _, _, _, _, hb, _ => by simp at hb
  | q :: ps, c :: bs, hnd, j, b, p, hb, hp => by
    have hnd' := List.nodup_cons.mp hnd
    unfold markSigned
    by_cases hc : r = q ∧ c = false
    · rw [if_pos hc]
      cases j with
      | zero =>
        simp only [List.getElem?_cons_zero, Option.some.injEq] at hb hp
        subst hb; subst hp
        simp [hc.1, hc.2]
      | succ j =>
        simp only [List.getElem?_cons_succ] at hb hp ⊢
        have hpmem : p ∈ ps := List.getElem?_mem hp
        have hpr : ¬ p = r := by
          intro h
          apply hnd'.1
          rw [← hc.1, ← h]
          exact hpmem
        simp [hb, hpr]
    · rw [if_neg hc]
      cases j with
      | zero =>
        simp only [List.getElem?_cons_zero, Option.some.injEq] at hb hp
        subst hb; subst hp
        by_cases hq : q = r
        · have hb1 : c = true := by
            rcases Bool.eq_false_or_eq_true c with h | h
            · exact h
            · exact absurd ⟨hq.symm, h⟩ hc
          simp [hb1]
        · simp [hq]
      | succ j =>
        simp only [List.getElem?_cons_succ] at hb hp ⊢
        exact markSigned_getElem? r ps bs hnd'.2 j b p hb hp

theorem recoverAndMark_ok_mem {Sig : Type} (recover : ChannelStateData → Sig → Address)
    (st : ChannelStateData) (ps : List Address) :
    ∀ (ss : List Sig) (bs hs : List Bool),
      recoverAndMark recover st ps ss bs = .ok hs → ∀ s ∈ ss, recover st s ∈ ps
  | [], _, _, _, _, hmem => by simp at hmem
  | s₀ :: ss, bs, hs, h, s, hmem => by
    unfold recoverAndMark at h
    by_cases hin : recover st s₀ ∈ ps
    · rw [if_pos hin] at h
      rcases List.mem_cons.mp hmem with rfl | hmem'
      · exact hin
      · exact recoverAndMark_ok_mem recover st ps ss _ hs h s hmem'
    · rw [if_neg hin] at h
      exact absurd h (by simp)

theorem recoverAndMark_ok_getElem? {Sig : Type} (recover : ChannelStateData → Sig → Address)
    (st : ChannelStateData) (ps : List Address) (hnd : ps.Nodup) :
    ∀ (ss : List Sig) (bs hs : List Bool),
      recoverAndMark recover st ps ss bs = .ok hs →
      ∀ (j : Nat) (b : Bool) (p : Address), bs[j]? = some b → ps[j]? = some p →
        hs[j]? = some (b || decide (p ∈ ss.map (recover st)))
  | [], bs, hs, h, j, b, p, hb, hp => by
    unfold recoverAndMark at h
    injection h with h
    subst h
    simpa using hb
  | s₀ :: ss, bs, hs, h, j, b, p, hb, hp => by
    unfold recoverAndMark at h
    by_cases hin : recover st s₀ ∈ ps
    · rw [if_pos hin] at h
      have hb' := markSigned_getElem? (recover st s₀) ps bs hnd j b p hb hp
      have hrec := recoverAndMark_ok_getElem? recover st ps hnd ss _ hs h j _ p hb' hp
      rw [hrec]
      by_cases h1 : p = recover st s₀ <;> by_cases h2 : p ∈ ss.map (recover st) <;>
        simp [h1, h2, List.mem_cons, Bool.or_assoc]
    · rw [if_neg hin] at h
      exact absurd h (by simp)

theorem recoverAndMark_ok_of_mem {Sig : Type} (recover : ChannelStateData → Sig → Address)
    (st : ChannelStateData) (ps : List Address) :
    ∀ (ss : List Sig) (bs : List Bool), (∀ s ∈ ss, recover st s ∈ ps) →
      ∃ hs, recoverAndMark recover st ps ss bs = .ok hs
  | [], bs, _ => ⟨bs, rfl⟩
  | s₀ :: ss, bs, hall => by
    unfold recoverAndMark
    rw [if_pos (hall s₀ (by simp))]
    exact recoverAndMark_ok_of_mem recover st ps ss _ (fun s hs => hall s (by simp [hs]))

theorem recoverAndMark_error_of_not_mem {Sig : Type}
    (recover : ChannelStateData → Sig → Address) (st : ChannelStateData) (ps : List Address) :
    ∀ (ss : List Sig) (bs : List Bool), (∃ s ∈ ss, recover st s ∉ ps) →
      recoverAndMark recover st ps ss bs = .error "Invalid signer"
  | [], _, h => by simp at h
  | s₀ :: ss, bs, h => by
    unfold recoverAndMark
    by_cases hin : recover st s₀ ∈ ps
    · rw [if_pos hin]
      apply recoverAndMark_error_of_not_mem
      rcases h with ⟨s, hs, hnot⟩
      rcases List.mem_cons.mp hs with rfl | hs'
      · exact absurd hin hnot
      · exact ⟨s, hs', hnot⟩
    · rw [if_neg hin]

/-- If `_verifySignatures` returns `true` and the participants are distinct
(as `EnumerableSet` guarantees), the recovered signer list is exactly a
permutation of the participant list. -/
theorem verify_ok_true_perm {Sig : Type} (recover : ChannelStateData → Sig → Address)
    (ch : Channel) (st : ChannelStateData) (sigs : List Sig)
    (hnd : ch.participants.Nodup)
    (h : verifySignatures recover ch st sigs = .ok true) :
    sigs.length = ch.participants.length ∧
    (sigs.map (recover st)).Perm ch.participants := by
  unfold verifySignatures at h
  by_cases hlen : sigs.length = ch.participants.length
  case neg => rw [if_pos hlen] at h; exact absurd h (by simp)
  rw [if_neg (not_not_intro hlen)] at h
  cases hrm : recoverAndMark recover st ch.participants sigs
      (List.replicate ch.participants.length false) with
  | error e => rw [hrm] at h; exact absurd h (by simp)
  | ok hs =>
    rw [hrm] at h
    have hall : hs.all (· = true) = true := by injection h
    have hsub : ch.participants ⊆ sigs.map (recover st) := by
      intro p hp
      obtain ⟨j, hj⟩ := List.getElem?_of_mem hp
      have hjlt : j < ch.participants.length := (List.getElem?_eq_some.mp hj).1
      have hbs : (List.replicate ch.participants.length false)[j]? = some false := by
        simp [List.getElem?_replicate, hjlt]
      have hhs := recoverAndMark_ok_getElem? recover st ch.participants hnd sigs _ hs hrm
        j false p hbs hj
      have hmem : (false || decide (p ∈ sigs.map (recover st))) ∈ hs := List.getElem?_mem hhs
      have := (List.all_eq_true.mp hall) _ hmem
      simpa using this
    have hsp : List.Subperm ch.participants (sigs.map (recover st)) := hnd.subperm hsub
    have hperm : ch.participants.Perm (sigs.map (recover st)) :=
      hsp.perm_of_length_le (by simp [hlen])
    exact ⟨hlen, hperm.symm⟩

/-- Success characterization of `updateState`. -/
theorem updateState_ok_iff {Sig : Type} (recover : ChannelStateData → Sig → Address)
    (sender : Address) (ch : Channel) (st : ChannelStateData) (sigs : List Sig)
    (ch' : Channel) :
    updateState recover sender ch st sigs = .ok ch' ↔
      (ch.channelId ≠ 0 ∧ sender ∈ ch.participants ∧ ch.isOpen = true ∧
       ch.inDispute = false ∧ st.channelId = ch.channelId ∧ ch.nonce < st.nonce ∧
       st.balances.length = ch.participants.length ∧
       verifySignatures recover ch st sigs = .ok true ∧
       st.balances.foldl (· + ·) 0 = 0 ∧
       { ch with stateHash := st.stateHash, nonce := st.nonce } = ch') := by
  unfold updateState
  split_ifs with h1 h2 h3 h4 h5 h6 h7 h8
  all_goals try push_neg at h5
  all_goals try push_neg at h7
  all_goals try push_neg at h8
  all_goals try (simp [*]; done)
  all_goals
    cases hv : verifySignatures recover ch st sigs with
    | error e => simp [hv, *]
    | ok b => cases b <;> simp [hv, *]

/-- Success characterization of `challengeState`. -/
theorem challengeState_ok_iff {Sig : Type} (recover : ChannelStateData → Sig → Address)
    (sender : Address) (now : Nat) (ch : Channel) (st : ChannelStateData)
    (sigs : List Sig) (ch' : Channel) :
    challengeState recover sender now ch st sigs = .ok ch' ↔
      (ch.channelId ≠ 0 ∧ sender ∈ ch.participants ∧ ch.isOpen = true ∧
       ch.nonce < st.nonce ∧
       verifySignatures recover ch st sigs = .ok true ∧
       { ch with
           stateHash := st.stateHash
           nonce := st.nonce
           inDispute := true
           disputeDeadline := now + DISPUTE_PERIOD } = ch') := by
  unfold challengeState
  split_ifs with h1 h2 h3 h4
  all_goals try (simp [*]; done)
  all_goals
    cases hv : verifySignatures recover ch st sigs with
    | error e => simp [hv, *]
    | ok b => cases b <;> simp [hv, *]

/-- Success characterization of `closeChannel`. -/
theorem closeChannel_ok_iff {Sig : Type} (recover : ChannelStateData → Sig → Address)
    (sender : Address) (now : Nat) (ch : Channel) (st : ChannelStateData)
    (sigs : List Sig) (ch' : Channel) :
    closeChannel recover sender now ch st sigs = .ok ch' ↔
      (ch.channelId ≠ 0 ∧ sender ∈ ch.participants ∧ ch.isOpen = true ∧
       (ch.inDispute = true → ch.disputeDeadline ≤ now) ∧
       verifySignatures recover ch st sigs = .ok true ∧
       ch.nonce ≤ st.nonce ∧
       { ch with
           isOpen := false
           stateHash := st.stateHash
           nonce := st.nonce } = ch') := by
  unfold closeChannel
  split_ifs with h1 h2 h3 h4 h5
  all_goals try push_neg at h4
  all_goals try push_neg at h5
  all_goals try (simp [*]; done)
  all_goals
    cases hv : verifySignatures recover ch st sigs with
    | error e => simp [hv, *]
    | ok b =>
      cases b
      · simp [hv, *]
      · simp [hv, *]
        try exact fun _ => h4

/-- Success characterization of `forceClose`. -/
theorem forceClose_ok_iff (sender : Address) (now : Nat) (ch : Channel) (ch' : Channel) :
    forceClose sender now ch = .ok ch' ↔
      (ch.channelId ≠ 0 ∧ sender ∈ ch.participants ∧ ch.timeout ≤ now ∧
       { ch with isOpen := false } = ch') := by
  unfold forceClose
  split_ifs with h1 h2 h3
  all_goals try push_neg at h3
  all_goals simp [*]

/-- Success characterization of `emergencyWithdraw`. -/
theorem emergencyWithdraw_ok_iff (sender : Address) (ch : Channel) (ch' : Channel) :
    emergencyWithdraw sender ch = .ok ch' ↔
      (ch.channelId ≠ 0 ∧ sender ∈ ch.participants ∧ ch.isOpen = false ∧
       0 < ch.deposits sender ∧
       { ch with deposits := fun a => if a = sender then 0 else ch.deposits a } = ch') := by
  unfold emergencyWithdraw
  split_ifs with h1 h2 h3 h4
  all_goals try push_neg at h4
  all_goals simp [*]

/-- Success characterization of `openChannel`. -/
theorem openChannel_ok_iff (sender : Address) (now : Nat) (participants : List Address)
    (chainId : Nat) (msgValue : Nat) (channelId : Bytes32) (ch : Channel) :
    openChannel sender now participants chainId msgValue channelId = .ok ch ↔
      (MIN_PARTICIPANTS ≤ participants.length ∧ participants.length ≤ MAX_PARTICIPANTS ∧
       0 < msgValue ∧ 0 < chainId ∧ checkParticipants participants = .ok () ∧
       ({ channelId := channelId, participants := participants,
          totalDeposit := msgValue,
          deposits := fun a => if a = sender then msgValue else 0,
          nonce := 0, timeout := now + CHANNEL_TIMEOUT, disputeDeadline := 0,
          stateHash := 0, isOpen := true, inDispute := false,
          chainId := chainId } : Channel) = ch) := by
  unfold openChannel
  split_ifs with h1 h2 h3
  all_goals try push_neg at h2
  all_goals try push_neg at h3
  all_goals try (simp [*]; done)
  all_goals try (
    rw [Classical.not_and_iff_or_not_not] at h1
    rcases h1 with h | h <;> simp [h])
  all_goals
    cases hcp : checkParticipants participants with
    | error e => simp [hcp, *]
    | ok u =>
      cases u
      simp [hcp, *]

/-- The duplicate check of `openChannel` guarantees distinct participants, so
the `Nodup` hypotheses used below hold for every channel the contract
creates (`EnumerableSet` preserves this). -/
theorem checkParticipants_ok_nodup :
    ∀ ps : List Address, checkParticipants ps = .ok () → ps.Nodup
  | [], _ => List.nodup_nil
  | p :: ps, h => by
    unfold checkParticipants at h
    split_ifs at h with h1 h2
    exact List.nodup_cons.mpr ⟨h2, checkParticipants_ok_nodup ps h⟩

/-- One `updateState` transaction never decreases the nonce. -/
theorem stepUpdate_nonce_le {Sig : Type} (recover : ChannelStateData → Sig → Address)
    (ch : Channel) (t : Address × ChannelStateData × List Sig) :
    ch.nonce ≤ (stepUpdate recover ch t).nonce := by
  unfold stepUpdate
  cases h : updateState recover t.1 ch t.2.1 t.2.2 with
  | error e => exact le_refl _
  | ok c =>
    obtain ⟨_, _, _, _, _, hlt, _, _, _, hc⟩ :=
      (updateState_ok_iff recover t.1 ch t.2.1 t.2.2 c).mp h
    rw [← hc]
    exact Nat.le_of_lt hlt

/-- A sequence of `updateState` transactions never decreases the nonce. -/
theorem runUpdates_nonce_le {Sig : Type} (recover : ChannelStateData → Sig → Address) :
    ∀ (ts : List (Address × ChannelStateData × List Sig)) (ch : Channel),
      ch.nonce ≤ (runUpdates recover ch ts).nonce
  | [], _ => le_refl _
  | t :: ts, ch =>
    le_trans (stepUpdate_nonce_le recover ch t) (runUpdates_nonce_le recover ts _)

/-- No transaction increases any recorded deposit, and none changes
`totalDeposit`. -/
theorem stepOp_deposits {Sig : Type} (recover : ChannelStateData → Sig → Address)
    (ch : Channel) (op : ChanOp Sig) :
    (∀ a, (stepOp recover ch op).deposits a ≤ ch.deposits a) ∧
    (stepOp recover ch op).totalDeposit = ch.totalDeposit := by
  cases op with
  | update s st sigs =>
    simp only [stepOp, applyOp]
    cases h : updateState recover s ch st sigs with
    | error e => exact ⟨fun a => le_refl _, rfl⟩
    | ok c =>
      obtain ⟨_, _, _, _, _, _, _, _, _, hc⟩ :=
        (updateState_ok_iff recover s ch st sigs c).mp h
      rw [← hc]
      exact ⟨fun a => le_refl _, rfl⟩
  | challenge s now st sigs =>
    simp only [stepOp, applyOp]
    cases h : challengeState recover s now ch st sigs with
    | error e => exact ⟨fun a => le_refl _, rfl⟩
    | ok c =>
      obtain ⟨_, _, _, _, _, hc⟩ :=
        (challengeState_ok_iff recover s now ch st sigs c).mp h
      rw [← hc]
      exact ⟨fun a => le_refl _, rfl⟩
  | close s now st sigs =>
    simp only [stepOp, applyOp]
    cases h : closeChannel recover s now ch st sigs with
    | error e => exact ⟨fun a => le_refl _, rfl⟩
    | ok c =>
      obtain ⟨_, _, _, _, _, _, hc⟩ :=
        (closeChannel_ok_iff recover s now ch st sigs c).mp h
      rw [← hc]
      exact ⟨fun a => le_refl _, rfl⟩
  | force s now =>
    simp only [stepOp, applyOp]
    cases h : forceClose s now ch with
    | error e => exact ⟨fun a => le_refl _, rfl⟩
    | ok c =>
      obtain ⟨_, _, _, hc⟩ := (forceClose_ok_iff s now ch c).mp h
      rw [← hc]
      exact ⟨fun a => le_refl _, rfl⟩
  | withdraw s =>
    simp only [stepOp, applyOp]
    cases h : emergencyWithdraw s ch with
    | error e => exact ⟨fun a => le_refl _, rfl⟩
    | ok c =>
      obtain ⟨_, _, _, _, hc⟩ := (emergencyWithdraw_ok_iff s ch c).mp h
      rw [← hc]
      refine ⟨fun a => ?_, rfl⟩
      by_cases ha : a = s
      · simp [ha]
      · simp [ha]

/-- Over any transaction sequence, deposits never increase and `totalDeposit`
never changes. -/
theorem runOps_deposits {Sig : Type} (recover : ChannelStateData → Sig → Address) :
    ∀ (ops : List (ChanOp Sig)) (ch : Channel),
      (∀ a, (runOps recover ch ops).deposits a ≤ ch.deposits a) ∧
      (runOps recover ch ops).totalDeposit = ch.totalDeposit
  | [], _ => ⟨fun _ => le_refl _, rfl⟩
  | op :: ops, ch => by
    have h1 := stepOp_deposits recover ch op
    have h2 := runOps_deposits recover ops (stepOp recover ch op)
    exact ⟨fun a => le_trans (h2.1 a) (h1.1 a), h2.2.trans h1.2⟩

/-! ### Claims -/

/-- Claim C1: `updateState` accepts a new state only if `newState.nonce` is
strictly greater than the channel's current nonce; submitting a state with
`nonce <= current` always fails; hence over any sequence of `updateState`
transactions the channel's nonce never decreases, and every accepted update
strictly increases it. -/
theorem C1_nonce_monotonicity {Sig : Type} (recover : ChannelStateData → Sig → Address)
    (sender : Address) (ch : Channel) (st : ChannelStateData) (sigs : List Sig) :
    (∀ ch', updateState recover sender ch st sigs = .ok ch' → ch.nonce < ch'.nonce) ∧
    (st.nonce ≤ ch.nonce → ∀ ch', updateState recover sender ch st sigs ≠ .ok ch') ∧
    (∀ ts : List (Address × ChannelStateData × List Sig),
        ch.nonce ≤ (runUpdates recover ch ts).nonce) := by
  refine ⟨?_, ?_, ?_⟩
  · intro ch' h
    obtain ⟨_, _, _, _, _, hlt, _, _, _, hc⟩ :=
      (updateState_ok_iff recover sender ch st sigs ch').mp h
    rw [← hc]
    exact hlt
  · intro hle ch' h
    obtain ⟨_, _, _, _, _, hlt, _⟩ :=
      (updateState_ok_iff recover sender ch st sigs ch').mp h
    omega
  · intro ts
    exact runUpdates_nonce_le recover ts ch

/-- Witness for C1: the valid nonce-1 update on `chT` is accepted and strictly
increases the nonce; the stale nonce-0 update is rejected. -/
theorem C1_witness :
    chT.nonce < chT1.nonce ∧ updateState recAddr 1 chT stT0 [1, 2] ≠ .ok chT1 := by
  constructor
  · exact (C1_nonce_monotonicity recAddr 1 chT stT [1, 2]).1 chT1 rfl
  · exact (C1_nonce_monotonicity recAddr 1 chT stT0 [1, 2]).2.1 (by decide) chT1

/-- Claim C2 (counterexample): the claim says `challengeState` and
`closeChannel` also reject states whose balances do not sum to zero, but
neither performs any balance-sum check: `challengeState` accepts the concrete
state `stBad` with balance sum `3`. -/
theorem C2_counterexample :
    stBad.balances.foldl (· + ·) 0 ≠ 0 ∧
    challengeState recAddr 1 100 chT stBad [1, 2] =
      .ok { chT with
              stateHash := 7
              nonce := 1
              inDispute := true
              disputeDeadline := 100 + DISPUTE_PERIOD } :=
  ⟨by decide, rfl⟩

/-- Claim C2 (amended): `updateState` rejects any state whose balances do not
sum to zero, but `challengeState` and `closeChannel` perform no balance-sum
check and can adopt states with nonzero sum. -/
theorem C2_amended_balance_conservation {Sig : Type}
    (recover : ChannelStateData → Sig → Address) (sender : Address) (ch : Channel)
    (st : ChannelStateData) (sigs : List Sig) :
    (∀ ch', updateState recover sender ch st sigs = .ok ch' →
        st.balances.foldl (· + ·) 0 = 0) ∧
    (∃ ch₂ st₂ sigs₂ ch₂', st₂.balances.foldl (· + ·) 0 ≠ 0 ∧
        challengeState recAddr 1 100 ch₂ st₂ sigs₂ = .ok ch₂') ∧
    (∃ ch₃ st₃ sigs₃ ch₃', st₃.balances.foldl (· + ·) 0 ≠ 0 ∧
        closeChannel recAddr 1 100 ch₃ st₃ sigs₃ = .ok ch₃') := by
  refine ⟨?_, ?_, ?_⟩
  · intro ch' h
    exact ((updateState_ok_iff recover sender ch st sigs ch').mp h).2.2.2.2.2.2.2.2.1
  · exact ⟨chT, stBad, [1, 2], _, by decide, rfl⟩
  · exact ⟨chT, stBad, [1, 2], _, by decide, rfl⟩

/-- Witness for C2 (amended): the accepted `updateState` on `chT` indeed has
zero-sum balances. -/
theorem C2_witness : stT.balances.foldl (· + ·) 0 = 0 :=
  (C2_amended_balance_conservation recAddr 1 chT stT [1, 2]).1 chT1 rfl

/-- Claim C3: with distinct participants (as `EnumerableSet` guarantees), a
state passes `_verifySignatures` with `true` only if the signature count equals
the participant count and the recovered signer list is exactly a permutation of
the participant set with no duplicate signer; `updateState` accepts only such
states; and for an accepted signature set, removing any one signature causes
rejection. -/
theorem C3_signature_completeness {Sig : Type} (recover : ChannelStateData → Sig → Address)
    (sender : Address) (ch : Channel) (st : ChannelStateData) (sigs : List Sig)
    (hnd : ch.participants.Nodup) :
    (verifySignatures recover ch st sigs = .ok true →
        sigs.length = ch.participants.length ∧
        (sigs.map (recover st)).Nodup ∧
        (sigs.map (recover st)).Perm ch.participants) ∧
    (∀ ch', updateState recover sender ch st sigs = .ok ch' →
        verifySignatures recover ch st sigs = .ok true) ∧
    (∀ sigs' : List Sig, verifySignatures recover ch st sigs = .ok true →
        sigs'.length + 1 = sigs.length →
        verifySignatures recover ch st sigs' = .error "Need all participant signatures" ∧
        ∀ ch', updateState recover sender ch st sigs' ≠ .ok ch') := by
  refine ⟨?_, ?_, ?_⟩
  · intro h
    obtain ⟨hlen, hperm⟩ := verify_ok_true_perm recover ch st sigs hnd h
    exact ⟨hlen, hperm.nodup_iff.mpr hnd, hperm⟩
  · intro ch' h
    exact ((updateState_ok_iff recover sender ch st sigs ch').mp h).2.2.2.2.2.2.2.1
  · intro sigs' hok hlen'
    obtain ⟨hlen, _⟩ := verify_ok_true_perm recover ch st sigs hnd hok
    have hne : sigs'.length ≠ ch.participants.length := by omega
    have herr : verifySignatures recover ch st sigs' =
        .error "Need all participant signatures" := by
      unfold verifySignatures
      rw [if_pos hne]
    refine ⟨herr, ?_⟩
    intro ch' h
    have hv := ((updateState_ok_iff recover sender ch st sigs' ch').mp h).2.2.2.2.2.2.2.1
    rw [herr] at hv
    exact Except.noConfusion hv

/-- Witness for C3: the full signature set `[2, 1]` over `chT` recovers exactly
to the participant set, and dropping one signature is rejected. -/
theorem C3_witness :
    ([2, 1].map (recAddr stT)).Perm chT.participants ∧
    verifySignatures recAddr chT stT [2] = .error "Need all participant signatures" := by
  have h := C3_signature_completeness recAddr 1 chT stT [2, 1] (by decide)
  exact ⟨(h.1 rfl).2.2, (h.2.2 [2] rfl (by decide)).1⟩

/-- Claim C4 (counterexample): the claim says `_verifySignatures` returns
`false` rather than raising an error for every invalid input, but it reverts
(raises) on a wrong signature count and on a signer outside the participant
set. -/
theorem C4_counterexample :
    verifySignatures recAddr chT stT ([] : List Address) =
      .error "Need all participant signatures" ∧
    verifySignatures recAddr chT stT [7, 1] = .error "Invalid signer" :=
  ⟨rfl, rfl⟩

/-- Claim C4 (amended): `_verifySignatures` reverts with "Need all participant
signatures" on a wrong signature count and with "Invalid signer" on a signer
outside the participant set; only when the count matches and every signer is a
participant does it return a boolean, and in particular it returns `false`
(not an error) for a duplicate signer. -/
theorem C4_amended_verify_behaviour {Sig : Type} (recover : ChannelStateData → Sig → Address)
    (ch : Channel) (st : ChannelStateData) (sigs : List Sig)
    (hnd : ch.participants.Nodup) :
    (sigs.length ≠ ch.participants.length →
        verifySignatures recover ch st sigs = .error "Need all participant signatures") ∧
    (sigs.length = ch.participants.length →
        (∃ s ∈ sigs, recover st s ∉ ch.participants) →
        verifySignatures recover ch st sigs = .error "Invalid signer") ∧
    (sigs.length = ch.participants.length →
        (∀ s ∈ sigs, recover st s ∈ ch.participants) →
        ∃ b, verifySignatures recover ch st sigs = .ok b) ∧
    (sigs.length = ch.participants.length →
        (∀ s ∈ sigs, recover st s ∈ ch.participants) →
        ¬ (sigs.map (recover st)).Nodup →
        verifySignatures recover ch st sigs = .ok false) := by
  have hok : sigs.length = ch.participants.length →
      (∀ s ∈ sigs, recover st s ∈ ch.participants) →
      ∃ b, verifySignatures recover ch st sigs = .ok b := by
    intro hlen hall
    obtain ⟨hs, hrm⟩ := recoverAndMark_ok_of_mem recover st ch.participants sigs
      (List.replicate ch.participants.length false) hall
    refine ⟨hs.all (· = true), ?_⟩
    unfold verifySignatures
    rw [if_neg (not_not_intro hlen), hrm]
  refine ⟨?_, ?_, hok, ?_⟩
  · intro hne
    unfold verifySignatures
    rw [if_pos hne]
  · intro hlen hex
    unfold verifySignatures
    rw [if_neg (not_not_intro hlen),
      recoverAndMark_error_of_not_mem recover st ch.participants sigs _ hex]
  · intro hlen hall hdup
    obtain ⟨b, hb⟩ := hok hlen hall
    cases b
    · exact hb
    · obtain ⟨_, hperm⟩ := verify_ok_true_perm recover ch st sigs hnd hb
      exact absurd (hperm.nodup_iff.mpr hnd) hdup

/-- Witness for C4 (amended): the duplicate-signer set `[1, 1]` on `chT`
returns `false` (not an error). -/
theorem C4_witness : verifySignatures recAddr chT stT [1, 1] = .ok false :=
  (C4_amended_verify_behaviour recAddr chT stT [1, 1] (by decide)).2.2.2
    (by decide) (by decide) (by decide)

/-- Claim C5: `challengeState` succeeds while the channel is open (whether or
not already in dispute — there is no dispute-status precondition), requires a
strictly greater nonce, and on success adopts the new state's hash and nonce,
marks the channel disputed, and sets `disputeDeadline = now + DISPUTE_PERIOD`
(7 days), regardless of any earlier deadline — so a re-challenge during an
existing dispute window resets the deadline. -/
theorem C5_challenge_spec {Sig : Type} (recover : ChannelStateData → Sig → Address)
    (sender : Address) (now : Nat) (ch : Channel) (st : ChannelStateData)
    (sigs : List Sig) :
    (∀ ch', challengeState recover sender now ch st sigs = .ok ch' →
        ch.isOpen = true ∧ ch.nonce < st.nonce ∧
        ch' = { ch with
                  stateHash := st.stateHash
                  nonce := st.nonce
                  inDispute := true
                  disputeDeadline := now + DISPUTE_PERIOD }) ∧
    (ch.channelId ≠ 0 → sender ∈ ch.participants → ch.isOpen = true →
        ch.nonce < st.nonce → verifySignatures recover ch st sigs = .ok true →
        challengeState recover sender now ch st sigs =
          .ok { ch with
                  stateHash := st.stateHash
                  nonce := st.nonce
                  inDispute := true
                  disputeDeadline := now + DISPUTE_PERIOD }) ∧
    DISPUTE_PERIOD = 7 * 86400 := by
  refine ⟨?_, ?_, rfl⟩
  · intro ch' h
    obtain ⟨_, _, hopen, hlt, _, hc⟩ :=
      (challengeState_ok_iff recover sender now ch st sigs ch').mp h
    exact ⟨hopen, hlt, hc.symm⟩
  · intro h1 h2 h3 h4 h5
    exact (challengeState_ok_iff recover sender now ch st sigs _).mpr
      ⟨h1, h2, h3, h4, h5, rfl⟩

/-- Witness for C5: a re-challenge on the already-disputed channel `chD`
(old deadline 50) at time 100 succeeds and resets the deadline to
`100 + DISPUTE_PERIOD`. -/
theorem C5_witness :
    challengeState recAddr 1 100 chD stT2 [1, 2] =
      .ok { chD with
              stateHash := 8
              nonce := 2
              inDispute := true
              disputeDeadline := 100 + DISPUTE_PERIOD } :=
  (C5_challenge_spec recAddr 1 100 chD stT2 [1, 2]).2.1
    (by decide) (by decide) rfl (by decide) rfl

/-- Claim C6: `closeChannel` accepts a final state only if
`finalState.nonce >= channel.nonce` (equality allowed, unlike `updateState`),
additionally requires `now >= disputeDeadline` when the channel is disputed,
and on success transitions the channel to closed with the final state's hash
and nonce. -/
theorem C6_close_spec {Sig : Type} (recover : ChannelStateData → Sig → Address)
    (sender : Address) (now : Nat) (ch : Channel) (st : ChannelStateData)
    (sigs : List Sig) :
    (∀ ch', closeChannel recover sender now ch st sigs = .ok ch' →
        ch.nonce ≤ st.nonce ∧ (ch.inDispute = true → ch.disputeDeadline ≤ now) ∧
        ch' = { ch with isOpen := false, stateHash := st.stateHash, nonce := st.nonce }) ∧
    (ch.channelId ≠ 0 → sender ∈ ch.participants → ch.isOpen = true →
        (ch.inDispute = true → ch.disputeDeadline ≤ now) →
        verifySignatures recover ch st sigs = .ok true → ch.nonce ≤ st.nonce →
        closeChannel recover sender now ch st sigs =
          .ok { ch with isOpen := false, stateHash := st.stateHash, nonce := st.nonce }) ∧
    (st.nonce = ch.nonce → ∀ ch', updateState recover sender ch st sigs ≠ .ok ch') := by
  refine ⟨?_, ?_, ?_⟩
  · intro ch' h
    obtain ⟨_, _, _, hdl, _, hle, hc⟩ :=
      (closeChannel_ok_iff recover sender now ch st sigs ch').mp h
    exact ⟨hle, hdl, hc.symm⟩
  · intro h1 h2 h3 h4 h5 h6
    exact (closeChannel_ok_iff recover sender now ch st sigs _).mpr
      ⟨h1, h2, h3, h4, h5, h6, rfl⟩
  · intro heq ch' h
    obtain ⟨_, _, _, _, _, hlt, _⟩ :=
      (updateState_ok_iff recover sender ch st sigs ch').mp h
    omega

/-- Witness for C6: closing `chT` with the equal-nonce state `stT0` succeeds,
while `updateState` with the same equal-nonce state is rejected. -/
theorem C6_witness :
    closeChannel recAddr 1 100 chT stT0 [1, 2] =
      .ok { chT with isOpen := false, stateHash := 6, nonce := 0 } ∧
    updateState recAddr 1 chT stT0 [1, 2] ≠ .ok chT1 := by
  have h := C6_close_spec recAddr 1 100 chT stT0 [1, 2]
  exact ⟨h.2.1 (by decide) (by decide) rfl (by simp [chT]) rfl (by decide),
         h.2.2 rfl chT1⟩

/-- Claim C7: once a channel is closed, no state transition is possible:
`updateState`, `challengeState` and `closeChannel` always reject (their
channel-open precondition fails), and `forceClose` — which has no channel-open
precondition — leaves the nonce, state hash, dispute flag and (closed)
lifecycle unchanged whenever it succeeds. -/
theorem C7_closed_is_terminal {Sig : Type} (recover : ChannelStateData → Sig → Address)
    (ch : Channel) (hclosed : ch.isOpen = false) :
    (∀ sender st (sigs : List Sig) ch', updateState recover sender ch st sigs ≠ .ok ch') ∧
    (∀ sender now st (sigs : List Sig) ch',
        challengeState recover sender now ch st sigs ≠ .ok ch') ∧
    (∀ sender now st (sigs : List Sig) ch',
        closeChannel recover sender now ch st sigs ≠ .ok ch') ∧
    (∀ sender now ch', forceClose sender now ch = .ok ch' →
        ch'.nonce = ch.nonce ∧ ch'.stateHash = ch.stateHash ∧ ch'.isOpen = false ∧
        ch'.inDispute = ch.inDispute) := by
  refine ⟨?_, ?_, ?_, ?_⟩
  · intro sender st sigs ch' h
    have hopen := ((updateState_ok_iff recover sender ch st sigs ch').mp h).2.2.1
    simp [hclosed] at hopen
  · intro sender now st sigs ch' h
    have hopen := ((challengeState_ok_iff recover sender now ch st sigs ch').mp h).2.2.1
    simp [hclosed] at hopen
  · intro sender now st sigs ch' h
    have hopen := ((closeChannel_ok_iff recover sender now ch st sigs ch').mp h).2.2.1
    simp [hclosed] at hopen
  · intro sender now ch' h
    obtain ⟨_, _, _, hc⟩ := (forceClose_ok_iff sender now ch ch').mp h
    rw [← hc]
    exact ⟨rfl, rfl, rfl, rfl⟩

/-- Witness for C7: on the closed channel `chC`, `updateState` rejects and a
successful `forceClose` leaves nonce, state hash and lifecycle unchanged. -/
theorem C7_witness :
    updateState recAddr 1 chC stT [1, 2] ≠ .ok chT1 ∧
    ({ chC with isOpen := false } : Channel).nonce = chC.nonce ∧
    ({ chC with isOpen := false } : Channel).stateHash = chC.stateHash ∧
    ({ chC with isOpen := false } : Channel).isOpen = false ∧
    ({ chC with isOpen := false } : Channel).inDispute = chC.inDispute := by
  have h := C7_closed_is_terminal recAddr chC rfl
  exact ⟨h.1 1 stT [1, 2] chT1,
         h.2.2.2 1 CHANNEL_TIMEOUT { chC with isOpen := false } rfl⟩

/-- Claim C8 (counterexample): the claim says the client commits the proposed
state locally only once enough countersignatures satisfy `verifyAll`, but
`updateChannelState` takes no countersignatures at all and runs no signature
verification: at a concrete client state with nonce 0 it succeeds — the relay
send merely resolving — and the local current state is advanced to nonce 1
with no countersignature ever received. -/
theorem C8_counterexample :
    (updateChannelState clientC8 cnAuth [5, -5] 77 true).map
        (fun c => c.currentChannel.map (·.nonce)) = .ok (some 1) := rfl

/-- Claim C8 (amended): `updateChannelState` constructs the state with
`nonce = current + 1`, signs the relay message locally and sends it via
`sendStateUpdate`, and commits the incremented nonce, new hash and new
balances as the local current state immediately once the send resolves; it
succeeds exactly when a local channel and signer exist and the relay
connection is authenticated and signing succeeds — no countersignature and no
`verifyAll` condition is involved. -/
theorem C8_amended_commit_on_send (client : StateChannelClient) (cn : ClearNodeState)
    (newBalances : List Int) (newStateHash : Bytes32) (signOk : Bool)
    (client' : StateChannelClient) :
    updateChannelState client cn newBalances newStateHash signOk = .ok client' ↔
      (∃ ch, client.currentChannel = some ch ∧ client.hasMessageSigner = true ∧
        cn.hasSigner = true ∧ cn.connection.isAuthenticated = true ∧ signOk = true ∧
        client' = commitState client ch newBalances newStateHash) := by
  unfold updateChannelState sendStateUpdate
  cases hc : client.currentChannel with
  | none => simp
  | some ch =>
    split_ifs with h1 h2 h3
    all_goals try (simp [h1]; done)
    all_goals try (rcases h2 with h | h <;> simp [h])
    all_goals try (simp [h3]; done)
    push_neg at h2
    constructor
    · intro h
      injection h with h
      exact ⟨ch, rfl, by simpa using h1, by simpa using h2.1, by simpa using h2.2,
        by simpa using h3, h.symm⟩
    · rintro ⟨ch₁, hch, _, _, _, _, hcl⟩
      injection hch with hch
      subst hch
      rw [hcl]

/-- Witness for C8 (amended): the concrete success on `clientC8`. -/
theorem C8_witness :
    updateChannelState clientC8 cnAuth [5, -5] 77 true =
      .ok (commitState clientC8 chCl [5, -5] 77) :=
  (C8_amended_commit_on_send clientC8 cnAuth [5, -5] 77 true _).mpr
    ⟨chCl, rfl, rfl, rfl, rfl, rfl, rfl⟩

/-- Claim C9: an authentication attempt (started from a connected,
not-yet-authenticated session with a socket and a signer) whose 15-second
timeout fires before any relay confirmation rejects with the explicit error
"Authentication timeout - ClearNode authentication failed", returns the phase
to `connected`, and never marks the connection authenticated. -/
theorem C9_auth_timeout (cn : ClearNodeState)
    (hws : cn.hasWs = true) (hsig : cn.hasSigner = true)
    (hconn : cn.connectionState = .connected)
    (hnotauth : cn.connection.isAuthenticated = false) :
    authenticate cn .timeout =
      ({ cn with connectionState := .connected },
        .rejected "Authentication timeout - ClearNode authentication failed") ∧
    (authenticate cn .timeout).1.connection.isAuthenticated = false ∧
    (authenticate cn .timeout).1.connectionState ≠ .authenticated := by
  have h : authenticate cn .timeout =
      ({ cn with connectionState := .connected },
        .rejected "Authentication timeout - ClearNode authentication failed") := by
    unfold authenticate settleAuth
    simp [hws, hsig, hconn]
  refine ⟨h, ?_, ?_⟩
  · rw [h]
    exact hnotauth
  · rw [h]
    simp

/-- Witness for C9: the concrete connected session `cnConn`. -/
theorem C9_witness :
    authenticate cnConn .timeout =
      ({ cnConn with connectionState := .connected },
        .rejected "Authentication timeout - ClearNode authentication failed") ∧
    (authenticate cnConn .timeout).1.connection.isAuthenticated = false ∧
    (authenticate cnConn .timeout).1.connectionState ≠ .authenticated :=
  C9_auth_timeout cnConn rfl rfl rfl rfl

/-- Claim C10: `openChannel` records the entire attached deposit as the opening
caller's deposit and as `totalDeposit`, every other address's deposit is 0, and
no subsequent operation (over any transaction sequence, `emergencyWithdraw`
included) increases any deposit or changes `totalDeposit` — so every non-opener
participant's deposit remains 0 for the channel's whole lifetime. -/
theorem C10_deposits_invariant {Sig : Type} (recover : ChannelStateData → Sig → Address)
    (sender : Address) (now : Nat) (participants : List Address)
    (chainId msgValue : Nat) (channelId : Bytes32) (ch : Channel)
    (hopen : openChannel sender now participants chainId msgValue channelId = .ok ch) :
    ch.deposits sender = msgValue ∧ ch.totalDeposit = msgValue ∧
    (∀ a, a ≠ sender → ch.deposits a = 0) ∧
    (∀ ops : List (ChanOp Sig),
        (runOps recover ch ops).totalDeposit = msgValue ∧
        ∀ a, (runOps recover ch ops).deposits a ≤ ch.deposits a ∧
             (a ≠ sender → (runOps recover ch ops).deposits a = 0)) := by
  obtain ⟨_, _, _, _, _, hch⟩ :=
    (openChannel_ok_iff sender now participants chainId msgValue channelId ch).mp hopen
  have hdep : ∀ a, ch.deposits a = if a = sender then msgValue else 0 := by
    intro a
    rw [← hch]
  have htot : ch.totalDeposit = msgValue := by rw [← hch]
  have hzero : ∀ a, a ≠ sender → ch.deposits a = 0 := by
    intro a ha
    rw [hdep a, if_neg ha]
  refine ⟨by rw [hdep sender, if_pos rfl], htot, hzero, ?_⟩
  intro ops
  have h := runOps_deposits recover ops ch
  refine ⟨h.2.trans htot, fun a => ⟨h.1 a, fun ha => ?_⟩⟩
  have := h.1 a
  rw [hzero a ha] at this
  exact Nat.le_zero.mp this

/-- Witness for C10: the concrete channel `chT` opened by participant 1 with
10 wei; participant 2's deposit is 0 and stays 0 across a transaction
sequence. -/
theorem C10_witness :
    chT.deposits 1 = 10 ∧ chT.totalDeposit = 10 ∧ chT.deposits 2 = 0 ∧
    (runOps recAddr chT [ChanOp.withdraw 2]).totalDeposit = 10 ∧
    (runOps recAddr chT [ChanOp.withdraw 2]).deposits 2 = 0 := by
  have h := C10_deposits_invariant recAddr 1 0 [1, 2] 1 10 9 chT rfl
  exact ⟨h.1, h.2.1, h.2.2.1 2 (by decide),
         (h.2.2.2 [ChanOp.withdraw 2]).1,
         ((h.2.2.2 [ChanOp.withdraw 2]).2 2).2 (by decide)⟩

end BatchPay
